import Mathlib

/-!
Verification of the VLESS-over-WebSocket worker (`src/_work.js`).

The source is translated shallowly:
* an `ArrayBuffer` / `Uint8Array` is a `List Nat` whose elements are the byte
  values (a hypothesis `∀ b ∈ buf, b < 256` is added where a property needs
  the 8-bit range);
* a JavaScript value that may be `undefined` (reading past the end of a
  typed array) is an `Option Nat`, with `none` standing for `undefined`;
* the single `NaN` that can arise in the source (`addressValueIndex +
  addressLength` when the length byte is out of range) is modelled by
  `rawDataIndex : Option Nat`, with `none` standing for `NaN`; `slice(NaN)`
  truncates to `slice(0)`, which is modelled where the index is consumed;
* fallible decoding (`atob`) returns an `Option`.
-/

/-- JavaScript `buf.slice(a, b)` for `0 ≤ a ≤ b` (the only way the source
calls it): the bytes from index `a` (inclusive) to `b` (exclusive), clamped
to the buffer length. -/
def jsSlice (l : List Nat) (a b : Nat) : List Nat :=
  (l.drop a).take (b - a)

/-- Rendering of a possibly-`undefined` number inside a JS template string:
`undefined` prints as `"undefined"`, a number prints in decimal. -/
def jsShowOpt : Option Nat → String
  | none => "undefined"
  | some n => Nat.repr n

/-- JS `TypedArray.prototype.join('.')`: decimal rendering of each element,
separated by `'.'` (source line 264). -/
def joinDot : List Nat → String
  | [] => ""
  | [b] => Nat.repr b
  | b :: rest => Nat.repr b ++ "." ++ joinDot rest

/-! ### `new TextDecoder().decode` (WHATWG UTF-8 decode with replacement)

Used by the source (line 268) to turn domain-name bytes into a string.
Modelled as the standard UTF-8 decoder state machine: `need` continuation
bytes still expected, accumulated code point `cp`, and the admissible range
`lo`–`hi` for the next continuation byte. Invalid input yields U+FFFD. -/

structure Utf8State where
  cp : Nat
  need : Nat
  lo : Nat
  hi : Nat
  deriving DecidableEq

def utf8Start : Utf8State := ⟨0, 0, 0x80, 0xBF⟩

/-- Handle one byte in the initial state (no sequence in progress). -/
def utf8Init (b : Nat) : Utf8State × List Char :=
  if b ≤ 0x7F then (utf8Start, [Char.ofNat b])
  else if 0xC2 ≤ b ∧ b ≤ 0xDF then (⟨b &&& 0x1F, 1, 0x80, 0xBF⟩, [])
  else if b = 0xE0 then (⟨b &&& 0xF, 2, 0xA0, 0xBF⟩, [])
  else if b = 0xED then (⟨b &&& 0xF, 2, 0x80, 0x9F⟩, [])
  else if 0xE1 ≤ b ∧ b ≤ 0xEF then (⟨b &&& 0xF, 2, 0x80, 0xBF⟩, [])
  else if b = 0xF0 then (⟨b &&& 0x7, 3, 0x90, 0xBF⟩, [])
  else if b = 0xF4 then (⟨b &&& 0x7, 3, 0x80, 0x8F⟩, [])
  else if 0xF1 ≤ b ∧ b ≤ 0xF3 then (⟨b &&& 0x7, 3, 0x80, 0xBF⟩, [])
  else (utf8Start, ['�'])

/-- Handle one byte in an arbitrary decoder state. An invalid continuation
byte emits U+FFFD and reprocesses the byte in the initial state. -/
def utf8Step (st : Utf8State) (b : Nat) : Utf8State × List Char :=
  if st.need = 0 then utf8Init b
  else if st.lo ≤ b ∧ b ≤ st.hi then
    let cp := (st.cp <<< 6) ||| (b &&& 0x3F)
    if st.need = 1 then (utf8Start, [Char.ofNat cp])
    else (⟨cp, st.need - 1, 0x80, 0xBF⟩, [])
  else
    let r := utf8Init b
    (r.1, '�' :: r.2)

def utf8Fold : Utf8State → List Nat → List Char
  | st, [] => if st.need = 0 then [] else ['�']
  | st, b :: rest =>
    let r := utf8Step st b
    r.2 ++ utf8Fold r.1 rest

/-- JS `new TextDecoder().decode(bytes)` (UTF-8, replacement on error). -/
def textDecoderDecode (l : List Nat) : String :=
  String.mk (utf8Fold utf8Start l)

/-! ### `processVlessHeader` (source lines 230–289) -/

/-- Result of `processVlessHeader`: either `{hasError: true, message}` or the
success object `{hasError: false, addressRemote, addressType, portRemote,
rawDataIndex, vlessVersion, isUDP}` (fields in source order). -/
inductive VlessResult where
  | err (message : String)
  | ok (addressRemote : String) (addressType : Nat) (portRemote : Nat)
      (rawDataIndex : Option Nat) (vlessVersion : List Nat) (isUDP : Bool)
  deriving DecidableEq

/-- Source line 241: `optLength = new Uint8Array(vlessBuffer.slice(17, 18))[0]`.
The buffer has at least 24 bytes when this read happens, so the slice is
never empty; the default `0` is unreachable. -/
def optLengthOf (buf : List Nat) : Nat :=
  (jsSlice buf 17 18).headD 0

/-- Source line 242: the command byte, `undefined` (`none`) when the index
`18 + optLength` is past the end of the buffer. -/
def cmdOf (buf : List Nat) : Option Nat :=
  (jsSlice buf (18 + optLengthOf buf) (18 + optLengthOf buf + 1)).head?

/-- Source lines 251–253: big-endian 16-bit port. A missing byte is
`undefined`, which `<< 8` and `|` coerce to `0`. -/
def portRemoteOf (buf : List Nat) : Nat :=
  let portIndex := 19 + optLengthOf buf
  let portBuffer := jsSlice buf portIndex (portIndex + 2)
  ((portBuffer.getD 0 0) <<< 8) ||| (portBuffer.getD 1 0)

/-- Source lines 255–257: the address-type byte, `undefined` (`none`) when
out of range. -/
def addressTypeOf (buf : List Nat) : Option Nat :=
  (jsSlice buf (21 + optLengthOf buf) (21 + optLengthOf buf + 1)).head?

/-- Source lines 230–289, `processVlessHeader(vlessBuffer, userID)`.
`userID` is accepted but never used: the source stubs the identifier check
with `isValidUser = true` (line 239), so the `invalid user` return at
line 277 is dead code. In the `addressType === 2` branch a missing length
byte makes the source compute `rawDataIndex = NaN` and decode an empty
slice; that corner is the `none` case of the inner `match`. -/
def processVlessHeader (vlessBuffer : List Nat) (userID : String) : VlessResult :=
  if vlessBuffer.length < 24 then
    .err "invalid data"
  else
    let version := jsSlice vlessBuffer 0 1
    let isValidUser := true
    let optLength := optLengthOf vlessBuffer
    let cmd := cmdOf vlessBuffer
    let afterCmd : Bool → VlessResult := fun isUDP =>
      let portRemote := portRemoteOf vlessBuffer
      let addressValueIndex := 22 + optLength
      let finish : String → Nat → Option Nat → VlessResult :=
        fun addressValue aType rawDataIndex =>
          if isValidUser = false then .err "invalid user"
          else .ok addressValue aType portRemote rawDataIndex version isUDP
      if addressTypeOf vlessBuffer = some 1 then
        finish (joinDot (jsSlice vlessBuffer addressValueIndex (addressValueIndex + 4)))
          1 (some (addressValueIndex + 4))
      else if addressTypeOf vlessBuffer = some 2 then
        match (jsSlice vlessBuffer addressValueIndex (addressValueIndex + 1)).head? with
        | some addressLength =>
          finish
            (textDecoderDecode (jsSlice vlessBuffer (addressValueIndex + 1)
              (addressValueIndex + 1 + addressLength)))
            2 (some (addressValueIndex + 1 + addressLength))
        | none => finish (textDecoderDecode []) 2 none
      else if addressTypeOf vlessBuffer = some 3 then
        finish "ipv6" 3 (some (addressValueIndex + 16))
      else
        .err ("invild addressType is " ++ jsShowOpt (addressTypeOf vlessBuffer))
    if cmd = some 1 then afterCmd false
    else if cmd = some 2 then afterCmd true
    else .err ("command " ++ jsShowOpt cmd ++ " is not support, command 01-tcp, 02-udp")

example :
    processVlessHeader
      ([0] ++ List.replicate 16 7 ++ [0] ++ [1] ++ [0, 80] ++ [1] ++ [10, 0, 0, 1]) "x"
      = .ok "10.0.0.1" 1 80 (some 26) [0] false := by decide

example : processVlessHeader [1, 2, 3] "x" = .err "invalid data" := by decide

example :
    processVlessHeader
      ([0] ++ List.replicate 16 7 ++ [0] ++ [3] ++ [0, 80] ++ [1] ++ [10, 0, 0, 1]) "x"
      = .err "command 3 is not support, command 01-tcp, 02-udp" := by decide

/-! ### `base64ToArrayBuffer` (source lines 291–301) and `atob` -/

/-- ASCII whitespace removed by forgiving-base64 decoding. -/
def isB64Space (c : Char) : Bool :=
  c = ' ' ∨ c = '\t' ∨ c = '\n' ∨ c = '\x0c' ∨ c = '\r'

/-- Value of one base64 alphabet character, `none` outside the alphabet. -/
def b64Val (c : Char) : Option Nat :=
  if 'A' ≤ c ∧ c ≤ 'Z' then some (c.toNat - 65)
  else if 'a' ≤ c ∧ c ≤ 'z' then some (c.toNat - 97 + 26)
  else if '0' ≤ c ∧ c ≤ '9' then some (c.toNat - 48 + 52)
  else if c = '+' then some 62
  else if c = '/' then some 63
  else none

/-- Strip one or two trailing `'='` (only called when the length is a
multiple of 4, per forgiving-base64). -/
def stripPad (cs : List Char) : List Char :=
  match cs.reverse with
  | '=' :: '=' :: r => r.reverse
  | '=' :: r => r.reverse
  | _ => cs

/-- Turn 6-bit values into bytes; a trailing group of 2 or 3 values yields
1 or 2 bytes (remaining bits discarded); a trailing single value is
rejected (also excluded earlier by the length-mod-4 check). -/
def b64Bytes : List Nat → Option (List Nat)
  | [] => some []
  | [_] => none
  | [a, b] => some [(a <<< 2) ||| (b >>> 4)]
  | [a, b, c] => some [(a <<< 2) ||| (b >>> 4), ((b &&& 0xF) <<< 4) ||| (c >>> 2)]
  | a :: b :: c :: d :: rest =>
    (b64Bytes rest).map fun tl =>
      ((a <<< 2) ||| (b >>> 4)) :: (((b &&& 0xF) <<< 4) ||| (c >>> 2)) ::
        (((c &&& 0x3) <<< 6) ||| d) :: tl

/-- JS `atob` (forgiving-base64 decode): `none` models the thrown
`InvalidCharacterError`. The source reads the decoded binary string back
into bytes with `charCodeAt`, so the model returns the bytes directly. -/
def atob (s : String) : Option (List Nat) :=
  let cs := s.data.filter (fun c => !(isB64Space c))
  let cs := if cs.length % 4 = 0 then stripPad cs else cs
  if cs.length % 4 = 1 then none
  else (cs.mapM b64Val).bind b64Bytes

/-- Source line 294: replace every dash with a plus and every underscore
with a slash (the two global-regex replaces). -/
def urlSafeReplace (s : String) : String :=
  String.mk (s.data.map fun c => if c = '-' then '+' else if c = '_' then '/' else c)

/-- Result of `base64ToArrayBuffer`: `{earlyData: null, error: null}` for a
falsy input, `{earlyData, error: null}` on success, `{earlyData: null,
error}` when `atob` throws. -/
inductive EarlyDataResult where
  | empty
  | ok (earlyData : List Nat)
  | err
  deriving DecidableEq

/-- Source lines 291–301, `base64ToArrayBuffer(base64Str)`. The only falsy
string is the empty string. -/
def base64ToArrayBuffer (base64Str : String) : EarlyDataResult :=
  if base64Str = "" then .empty
  else
    match atob (urlSafeReplace base64Str) with
    | some bytes => .ok bytes
    | none => .err

example : base64ToArrayBuffer "AQID" = .ok [1, 2, 3] := by decide
example : base64ToArrayBuffer "AQID!" = .err := by decide
example : base64ToArrayBuffer "" = .empty := by decide
example : base64ToArrayBuffer "_w==" = .ok [255] := by decide
example : atob "AAAAAAAAAAAAAA==" = some (List.replicate 10 0) := by decide

/-! ### `makeReadableWebSocketStream` (source lines 194–228)

Modelled as the sequence of chunks the stream delivers to its consumer:
`start` runs synchronously before any message event can fire, so the early
data (when present and decodable) is the first chunk, each WebSocket
message is one further chunk in arrival order, and a base64 decode failure
errors the stream before any chunk is delivered. -/

inductive StreamChunks where
  | errored
  | chunks (cs : List (List Nat))
  deriving DecidableEq

def makeReadableWebSocketStream (earlyDataHeader : String)
    (messages : List (List Nat)) : StreamChunks :=
  match base64ToArrayBuffer earlyDataHeader with
  | .err => .errored
  | .empty => .chunks messages
  | .ok earlyData => .chunks (earlyData :: messages)

/-! ### The `WritableStream.write` handler of `vlessOverWSHandler`
(source lines 77–152) and `remoteSocketToWS` (source lines 162–192) -/

/-- Observable actions of one session, in order. `decodedHeader c` records
an invocation of `processVlessHeader` on chunk `c`; `connected` records the
`connect({hostname, port})` call together with the first upstream write
(`rawClientData`) and the prepared 2-byte response header. -/
inductive SessionEvent where
  | decodedHeader (chunk : List Nat)
  | threw (msg : String)
  | udpForward (chunk : List Nat)
  | remoteWrite (data : List Nat)
  | connected (host : String) (port : Nat) (firstWrite : List Nat)
      (respHeader : List Nat)
  deriving DecidableEq

/-- Mutable session state of `vlessOverWSHandler`: `isDns` (line 75),
whether `udpStreamWrite` is non-null (line 74; the source never assigns it,
so it stays `false`), and the connected remote socket (`remoteSocketWapper`,
line 71), recorded as its hostname and port. -/
structure SessionState where
  isDns : Bool
  udpStreamWrite : Bool
  remoteSocket : Option (String × Nat)
  deriving DecidableEq

def initSessionState : SessionState := ⟨false, false, none⟩

/-- One call of the `write(chunk, controller)` handler (source lines
78–143). Returns `none` when the handler throws (which rejects the
`pipeTo` and ends the session), together with the events it performed.
`throw` happens on a decode error (line 103) and on UDP with a port other
than 53 (line 112); on UDP port 53 the source sets `isDns` and still falls
through to `connect`. The response header is `[vlessVersion[0], 0]`
(line 117) and the first upstream write is `chunk.slice(rawDataIndex)`
(line 118), where a `NaN` index (`none`) truncates to `0`. -/
def writeChunk (proxyIP userID : String) (st : SessionState) (chunk : List Nat) :
    Option SessionState × List SessionEvent :=
  if st.isDns ∧ st.udpStreamWrite then (some st, [.udpForward chunk])
  else if st.remoteSocket.isSome then (some st, [.remoteWrite chunk])
  else
    match processVlessHeader chunk userID with
    | .err m => (none, [.decodedHeader chunk, .threw m])
    | .ok addressRemote _aType portRemote rawDataIndex vlessVersion isUDP =>
      if isUDP ∧ portRemote ≠ 53 then
        (none, [.decodedHeader chunk, .threw "UDP not supported"])
      else
        let st1 := if isUDP ∧ portRemote = 53 then { st with isDns := true } else st
        let vlessResponseHeader := [vlessVersion.headD 0, 0]
        let rawClientData := chunk.drop (rawDataIndex.getD 0)
        let targetHost := if proxyIP = "" then addressRemote else proxyIP
        (some { st1 with remoteSocket := some (targetHost, portRemote) },
          [.decodedHeader chunk, .connected targetHost portRemote rawClientData
            vlessResponseHeader])

/-- The whole inbound pipe: chunks are written one at a time; a thrown
error aborts the pipe, so no later chunk is processed. -/
def runSession (proxyIP userID : String) : SessionState → List (List Nat) → List SessionEvent
  | _, [] => []
  | st, c :: rest =>
    match writeChunk proxyIP userID st c with
    | (some st2, evs) => evs ++ runSession proxyIP userID st2 rest
    | (none, evs) => evs

/-- The downstream pump of `remoteSocketToWS` (source lines 165–188): the
`vlessHeaderSent` flag starts `false`; the first chunk is sent as
`header ++ chunk` (lines 174–181), every later chunk unmodified
(line 183). The input is the list of chunks read from the remote socket,
the output the list of WebSocket messages sent. -/
def remoteToWSLoop (vlessResponseHeader : List Nat) (vlessHeaderSent : Bool) :
    List (List Nat) → List (List Nat)
  | [] => []
  | chunk :: rest =>
    if vlessHeaderSent = false then
      (vlessResponseHeader ++ chunk) :: remoteToWSLoop vlessResponseHeader true rest
    else
      chunk :: remoteToWSLoop vlessResponseHeader true rest

def remoteSocketToWS (remoteChunks : List (List Nat))
    (vlessResponseHeader : List Nat) : List (List Nat) :=
  remoteToWSLoop vlessResponseHeader false remoteChunks

example :
    remoteSocketToWS [[9, 9], [8], [7]] [0, 0] = [[0, 0, 9, 9], [8], [7]] := by decide

/-! ### Dotted-decimal re-parse

The source only renders IPv4 addresses (`join('.')`); the reverse direction
needed for the round-trip property is modelled from the spec: split the
string at every dot and read each component as a decimal number. -/

def decDigit (c : Char) : Option Nat :=
  if '0' ≤ c ∧ c ≤ '9' then some (c.toNat - 48) else none

def digitsAcc : Nat → List Char → Option Nat
  | acc, [] => some acc
  | acc, c :: r =>
    match decDigit c with
    | some d => digitsAcc (acc * 10 + d) r
    | none => none

/-- A nonempty all-digit character list as a decimal number. -/
def parseDecimal (cs : List Char) : Option Nat :=
  if cs = [] then none else digitsAcc 0 cs

/-- Split at every `'.'` (a string with `n` dots yields `n + 1` pieces). -/
def splitDot : List Char → List (List Char)
  | [] => [[]]
  | c :: rest =>
    if c = '.' then [] :: splitDot rest
    else
      match splitDot rest with
      | g :: gs => (c :: g) :: gs
      | [] => [[c]]

def allSome : List (Option Nat) → Option (List Nat)
  | [] => some []
  | none :: _ => none
  | some x :: r => (allSome r).map (fun l => x :: l)

/-- Modelled from the spec: re-parse a dotted-decimal rendering back into
its byte values (the source has no such parser; claim C4 compares the
source's rendering against this spec-side inverse). -/
def parseDotted (s : String) : Option (List Nat) :=
  allSome ((splitDot s.data).map parseDecimal)

example : parseDotted "93.184.216.34" = some [93, 184, 216, 34] := by decide
example : parseDotted (joinDot [10, 0, 0, 1]) = some [10, 0, 0, 1] := by decide

/-! ### Shared helper lemmas -/

theorem take_one_head {α : Type} (m : List α) : (m.take 1).head? = m.head? := by
  cases m <;> simp

theorem jsSlice_head (l : List Nat) (a : Nat) :
    (jsSlice l a (a + 1)).head? = l[a]? := by
  simp [jsSlice, Nat.add_sub_cancel_left, take_one_head, List.head?_drop]

theorem jsSlice_headD (l : List Nat) (a d : Nat) :
    (jsSlice l a (a + 1)).headD d = (l[a]?).getD d := by
  rw [List.headD_eq_head?_getD, jsSlice_head]

theorem optLengthOf_eq (buf : List Nat) : optLengthOf buf = (buf[17]?).getD 0 := by
  have h : (18 : Nat) = 17 + 1 := rfl
  rw [optLengthOf, h, jsSlice_headD]

theorem cmdOf_eq (buf : List Nat) : cmdOf buf = buf[18 + optLengthOf buf]? := by
  rw [cmdOf, jsSlice_head]

theorem addressTypeOf_eq (buf : List Nat) :
    addressTypeOf buf = buf[21 + optLengthOf buf]? := by
  rw [addressTypeOf, jsSlice_head]

/-- Inversion: what must hold of the input whenever `processVlessHeader`
returns a success object. -/
theorem processVlessHeader_ok_inv (buf : List Nat) (uid : String)
    (a : String) (t p : Nat) (r : Option Nat) (v : List Nat) (u : Bool)
    (h : processVlessHeader buf uid = .ok a t p r v u) :
    24 ≤ buf.length ∧ p = portRemoteOf buf ∧ v = jsSlice buf 0 1 ∧
      (u = true ↔ cmdOf buf = some 2) ∧ addressTypeOf buf = some t := by
  by_cases h24 : buf.length < 24
  · rw [processVlessHeader, if_pos h24] at h
    exact VlessResult.noConfusion h
  · rw [processVlessHeader, if_neg h24] at h
    simp only at h
    refine ⟨by omega, ?_⟩
    split at h
    · rename_i hc1
      split at h
      · rename_i ht1
        rw [if_neg (by simp)] at h
        injection h with h1 h2 h3 h4 h5 h6
        exact ⟨h3.symm, h5.symm, by simp [← h6, hc1], h2 ▸ ht1⟩
      · split at h
        · rename_i ht2
          split at h
          · rw [if_neg (by simp)] at h
            injection h with h1 h2 h3 h4 h5 h6
            exact ⟨h3.symm, h5.symm, by simp [← h6, hc1], h2 ▸ ht2⟩
          · rw [if_neg (by simp)] at h
            injection h with h1 h2 h3 h4 h5 h6
            exact ⟨h3.symm, h5.symm, by simp [← h6, hc1], h2 ▸ ht2⟩
        · split at h
          · rename_i ht3
            rw [if_neg (by simp)] at h
            injection h with h1 h2 h3 h4 h5 h6
            exact ⟨h3.symm, h5.symm, by simp [← h6, hc1], h2 ▸ ht3⟩
          · exact VlessResult.noConfusion h
    · split at h
      · rename_i hc2
        split at h
        · rename_i ht1
          rw [if_neg (by simp)] at h
          injection h with h1 h2 h3 h4 h5 h6
          exact ⟨h3.symm, h5.symm, by simp [← h6, hc2], h2 ▸ ht1⟩
        · split at h
          · rename_i ht2
            split at h
            · rw [if_neg (by simp)] at h
              injection h with h1 h2 h3 h4 h5 h6
              exact ⟨h3.symm, h5.symm, by simp [← h6, hc2], h2 ▸ ht2⟩
            · rw [if_neg (by simp)] at h
              injection h with h1 h2 h3 h4 h5 h6
              exact ⟨h3.symm, h5.symm, by simp [← h6, hc2], h2 ▸ ht2⟩
          · split at h
            · rename_i ht3
              rw [if_neg (by simp)] at h
              injection h with h1 h2 h3 h4 h5 h6
              exact ⟨h3.symm, h5.symm, by simp [← h6, hc2], h2 ▸ ht3⟩
            · exact VlessResult.noConfusion h
      · exact VlessResult.noConfusion h

theorem remoteToWSLoop_sent (hdr : List Nat) (l : List (List Nat)) :
    remoteToWSLoop hdr true l = l := by
  induction l with
  | nil => rfl
  | cons c rest ih => rw [remoteToWSLoop, if_neg (by simp), ih]

/-! ### Claim theorems -/

/-- C1: every chunk shorter than 24 bytes makes `processVlessHeader` return
the malformed-data error, and the session throws on that chunk without ever
reaching `connect` — its whole event trace is the decode attempt followed
by the thrown error (no `connected` event, and no later chunk is
processed). -/
theorem claimShortHeaderRejected (proxyIP userID : String)
    (chunk : List Nat) (rest : List (List Nat)) (h : chunk.length < 24) :
    processVlessHeader chunk userID = .err "invalid data" ∧
    runSession proxyIP userID initSessionState (chunk :: rest) =
      [.decodedHeader chunk, .threw "invalid data"] := by
  have hd : processVlessHeader chunk userID = .err "invalid data" := by
    rw [processVlessHeader, if_pos h]
  exact ⟨hd, by simp [runSession, writeChunk, initSessionState, hd]⟩

theorem claimShortHeaderRejected_witness :
    processVlessHeader [0] "" = .err "invalid data" ∧
    runSession "" "" initSessionState [[0]] =
      [.decodedHeader [0], .threw "invalid data"] :=
  claimShortHeaderRejected "" "" [0] [] (by decide)

/-- C2: for any buffer of at least 24 bytes, the byte at index
`18 + optionsLength` decides the command: a value other than 1 or 2 yields
the unsupported-command error naming that value, and a successful decode is
UDP exactly when that byte is 2 (TCP when it is 1). -/
theorem claimCommandByte (buf : List Nat) (userID : String)
    (h24 : 24 ≤ buf.length) :
    (∀ c, buf[18 + optLengthOf buf]? = some c → c ≠ 1 → c ≠ 2 →
      processVlessHeader buf userID =
        .err ("command " ++ Nat.repr c ++ " is not support, command 01-tcp, 02-udp")) ∧
    (∀ a t p r v u, processVlessHeader buf userID = .ok a t p r v u →
      (u = true ↔ buf[18 + optLengthOf buf]? = some 2)) := by
  constructor
  · intro c hc h1 h2
    have hcm : cmdOf buf = some c := by rw [cmdOf_eq, hc]
    have hn1 : ¬ cmdOf buf = some 1 := by simp [hcm, h1]
    have hn2 : ¬ cmdOf buf = some 2 := by simp [hcm, h2]
    rw [processVlessHeader, if_neg (by omega)]
    simp only
    rw [if_neg hn1, if_neg hn2, hcm]
    simp [jsShowOpt]
  · intro a t p r v u h
    have hinv := (processVlessHeader_ok_inv buf userID a t p r v u h).2.2.2.1
    rwa [cmdOf_eq] at hinv

theorem claimCommandByte_witness :
    processVlessHeader
        ([0] ++ List.replicate 16 7 ++ [0] ++ [9] ++ [0, 80] ++ [1] ++ [10, 0, 0, 1]) ""
      = .err ("command " ++ Nat.repr 9 ++ " is not support, command 01-tcp, 02-udp") :=
  (claimCommandByte
      ([0] ++ List.replicate 16 7 ++ [0] ++ [9] ++ [0, 80] ++ [1] ++ [10, 0, 0, 1]) ""
      (by decide)).1 9 (by decide) (by decide) (by decide)

/-- C10: with a valid command byte and address-type byte 3 (IPv6), decoding
succeeds with the fixed literal address string `"ipv6"` — the 16 address
bytes are discarded — while `rawDataIndex` still advances past all 16 of
them (`22 + optionsLength + 16`). -/
theorem claimIpv6Literal (buf : List Nat) (uid : String)
    (h24 : 24 ≤ buf.length)
    (c : Nat) (hc : buf[18 + optLengthOf buf]? = some c) (hc12 : c = 1 ∨ c = 2)
    (ht : buf[21 + optLengthOf buf]? = some 3) :
    processVlessHeader buf uid =
      .ok "ipv6" 3 (portRemoteOf buf) (some (22 + optLengthOf buf + 16))
        (jsSlice buf 0 1) (decide (c = 2)) := by
  have hat : addressTypeOf buf = some 3 := by rw [addressTypeOf_eq, ht]
  have hn1 : ¬ addressTypeOf buf = some 1 := by simp [hat]
  have hn2 : ¬ addressTypeOf buf = some 2 := by simp [hat]
  rw [processVlessHeader, if_neg (by omega)]
  simp only
  rcases hc12 with h | h <;> subst h
  · have hcm : cmdOf buf = some 1 := by rw [cmdOf_eq, hc]
    rw [if_pos hcm, if_neg hn1, if_neg hn2, if_pos hat, if_neg (by simp)]
    simp
  · have hcm : cmdOf buf = some 2 := by rw [cmdOf_eq, hc]
    rw [if_neg (by simp [hcm]), if_pos hcm, if_neg hn1, if_neg hn2, if_pos hat,
      if_neg (by simp)]
    simp

theorem claimIpv6Literal_witness :
    processVlessHeader
        ([0] ++ List.replicate 16 7 ++ [0] ++ [1] ++ [31, 144] ++ [3] ++ List.replicate 16 9) ""
      = .ok "ipv6" 3
          (portRemoteOf
            ([0] ++ List.replicate 16 7 ++ [0] ++ [1] ++ [31, 144] ++ [3] ++ List.replicate 16 9))
          (some 38)
          (jsSlice
            ([0] ++ List.replicate 16 7 ++ [0] ++ [1] ++ [31, 144] ++ [3] ++ List.replicate 16 9)
            0 1)
          (decide ((1 : Nat) = 2)) :=
  claimIpv6Literal
    ([0] ++ List.replicate 16 7 ++ [0] ++ [1] ++ [31, 144] ++ [3] ++ List.replicate 16 9) ""
    (by decide) 1 (by decide) (Or.inl rfl) (by decide)

/-- C3: for a domain-name address (type 2) with length byte `L`, decoding
succeeds having consumed the type byte, the length byte and `L` domain
bytes, and returns `rawDataIndex = 23 + optionsLength + L` (the fixed
prefix `22 + optionsLength` plus `1 + L`). -/
theorem claimDomainOffset (buf : List Nat) (uid : String)
    (h24 : 24 ≤ buf.length)
    (c : Nat) (hc : buf[18 + optLengthOf buf]? = some c) (hc12 : c = 1 ∨ c = 2)
    (ht : buf[21 + optLengthOf buf]? = some 2)
    (L : Nat) (hL : buf[22 + optLengthOf buf]? = some L) :
    processVlessHeader buf uid =
      .ok (textDecoderDecode
            (jsSlice buf (23 + optLengthOf buf) (23 + optLengthOf buf + L)))
        2 (portRemoteOf buf) (some (23 + optLengthOf buf + L))
        (jsSlice buf 0 1) (decide (c = 2)) := by
  have hat : addressTypeOf buf = some 2 := by rw [addressTypeOf_eq, ht]
  have hn1 : ¬ addressTypeOf buf = some 1 := by simp [hat]
  have hLs : (jsSlice buf (22 + optLengthOf buf) (22 + optLengthOf buf + 1)).head?
      = some L := by rw [jsSlice_head, hL]
  have h23 : 22 + optLengthOf buf + 1 = 23 + optLengthOf buf := by omega
  rw [processVlessHeader, if_neg (by omega)]
  simp only
  rcases hc12 with h | h <;> subst h
  · have hcm : cmdOf buf = some 1 := by rw [cmdOf_eq, hc]
    rw [if_pos hcm, if_neg hn1, if_pos hat, hLs]
    simp only
    rw [if_neg (by simp), h23]
    simp
  · have hcm : cmdOf buf = some 2 := by rw [cmdOf_eq, hc]
    rw [if_neg (by simp [hcm]), if_pos hcm, if_neg hn1, if_pos hat, hLs]
    simp only
    rw [if_neg (by simp), h23]
    simp

def bufDomain : List Nat :=
  [0] ++ List.replicate 16 7 ++ [0] ++ [1] ++ [0, 80] ++ [2, 11] ++
    [101, 120, 97, 109, 112, 108, 101, 46, 99, 111, 109]

theorem claimDomainOffset_witness :
    processVlessHeader bufDomain "" =
      .ok (textDecoderDecode
            (jsSlice bufDomain (23 + optLengthOf bufDomain) (23 + optLengthOf bufDomain + 11)))
        2 (portRemoteOf bufDomain) (some (23 + optLengthOf bufDomain + 11))
        (jsSlice bufDomain 0 1) (decide ((1 : Nat) = 2)) :=
  claimDomainOffset bufDomain "" (by decide) 1 (by decide) (Or.inl rfl) (by decide)
    11 (by decide)

/-! ### Round-trip machinery for the IPv4 rendering (claim C4) -/

set_option maxRecDepth 4000 in
theorem reprNoDot : ∀ b : Fin 256, '.' ∉ (Nat.repr b.val).data := by decide

set_option maxRecDepth 4000 in
theorem parseDecimalRepr : ∀ b : Fin 256,
    parseDecimal (Nat.repr b.val).data = some b.val := by decide

theorem splitDot_no_dot (xs : List Char) (h : '.' ∉ xs) : splitDot xs = [xs] := by
  induction xs with
  | nil => rfl
  | cons c r ih =>
    rw [splitDot, if_neg (by intro hc; exact h (by simp [hc])),
      ih (fun hm => h (List.mem_cons_of_mem _ hm))]

theorem splitDot_append (xs ys : List Char) (h : '.' ∉ xs) :
    splitDot (xs ++ '.' :: ys) = xs :: splitDot ys := by
  induction xs with
  | nil => rw [List.nil_append, splitDot, if_pos rfl]
  | cons c r ih =>
    rw [List.cons_append, splitDot, if_neg (by intro hc; exact h (by simp [hc])),
      ih (fun hm => h (List.mem_cons_of_mem _ hm))]

theorem parseDotted_joinDot (a b c d : Nat)
    (ha : a < 256) (hb : b < 256) (hc : c < 256) (hd : d < 256) :
    parseDotted (joinDot [a, b, c, d]) = some [a, b, c, d] := by
  have nd : ∀ x : Nat, x < 256 → '.' ∉ (Nat.repr x).data :=
    fun x hx => reprNoDot ⟨x, hx⟩
  have pd : ∀ x : Nat, x < 256 → parseDecimal (Nat.repr x).data = some x :=
    fun x hx => parseDecimalRepr ⟨x, hx⟩
  have hdata : (joinDot [a, b, c, d]).data =
      (Nat.repr a).data ++ '.' :: ((Nat.repr b).data ++ '.' ::
        ((Nat.repr c).data ++ '.' :: (Nat.repr d).data)) := by
    simp [joinDot, String.data_append]
  rw [parseDotted, hdata, splitDot_append _ _ (nd a ha),
    splitDot_append _ _ (nd b hb), splitDot_append _ _ (nd c hc),
    splitDot_no_dot _ (nd d hd)]
  simp [allSome, pd a ha, pd b hb, pd c hc, pd d hd]

theorem jsSlice_subset (l : List Nat) (a b : Nat) : jsSlice l a b ⊆ l :=
  fun _ hx => List.drop_subset a l (List.take_subset _ _ hx)

theorem list_four {α : Type} (l : List α) (h : l.length = 4) :
    ∃ a b c d, l = [a, b, c, d] := by
  rcases l with _ | ⟨a, _ | ⟨b, _ | ⟨c, _ | ⟨d, _ | ⟨e, t⟩⟩⟩⟩⟩
  · simp at h
  · simp at h
  · simp at h
  · simp at h
  · exact ⟨a, b, c, d, rfl⟩
  · simp at h

theorem jsSlice_length (l : List Nat) (a b : Nat) (h : b ≤ l.length) :
    (jsSlice l a b).length = b - a := by
  simp [jsSlice]
  omega

/-- C4: for an IPv4 address (type 1) the decoder renders the 4 raw address
bytes in dotted decimal, and re-parsing that string reproduces the 4 bytes
exactly. -/
theorem claimIpv4RoundTrip (buf : List Nat) (uid : String)
    (hbytes : ∀ b ∈ buf, b < 256) (h24 : 24 ≤ buf.length)
    (c : Nat) (hc : buf[18 + optLengthOf buf]? = some c) (hc12 : c = 1 ∨ c = 2)
    (ht : buf[21 + optLengthOf buf]? = some 1)
    (hlen : 22 + optLengthOf buf + 4 ≤ buf.length) :
    processVlessHeader buf uid =
      .ok (joinDot (jsSlice buf (22 + optLengthOf buf) (22 + optLengthOf buf + 4)))
        1 (portRemoteOf buf) (some (22 + optLengthOf buf + 4)) (jsSlice buf 0 1)
        (decide (c = 2)) ∧
    parseDotted
        (joinDot (jsSlice buf (22 + optLengthOf buf) (22 + optLengthOf buf + 4))) =
      some (jsSlice buf (22 + optLengthOf buf) (22 + optLengthOf buf + 4)) := by
  have hat : addressTypeOf buf = some 1 := by rw [addressTypeOf_eq, ht]
  constructor
  · rw [processVlessHeader, if_neg (by omega)]
    simp only
    rcases hc12 with h | h <;> subst h
    · have hcm : cmdOf buf = some 1 := by rw [cmdOf_eq, hc]
      rw [if_pos hcm, if_pos hat, if_neg (by simp)]
      simp
    · have hcm : cmdOf buf = some 2 := by rw [cmdOf_eq, hc]
      rw [if_neg (by simp [hcm]), if_pos hcm, if_pos hat, if_neg (by simp)]
      simp
  · have h4 : (jsSlice buf (22 + optLengthOf buf) (22 + optLengthOf buf + 4)).length = 4 := by
      rw [jsSlice_length _ _ _ hlen]
      omega
    obtain ⟨a, b, c4, d, heq⟩ := list_four _ h4
    have hmem : ∀ x ∈ jsSlice buf (22 + optLengthOf buf) (22 + optLengthOf buf + 4),
        x < 256 := fun x hx => hbytes x (jsSlice_subset _ _ _ hx)
    have hm : ∀ x ∈ ([a, b, c4, d] : List Nat), x < 256 := heq ▸ hmem
    rw [heq]
    exact parseDotted_joinDot a b c4 d
      (hm a (by simp)) (hm b (by simp)) (hm c4 (by simp)) (hm d (by simp))

def bufIpv4 : List Nat :=
  [0] ++ List.replicate 16 7 ++ [0] ++ [1] ++ [0, 80] ++ [1] ++ [93, 184, 216, 34]

theorem claimIpv4RoundTrip_witness :
    processVlessHeader bufIpv4 "" =
      .ok (joinDot (jsSlice bufIpv4 (22 + optLengthOf bufIpv4) (22 + optLengthOf bufIpv4 + 4)))
        1 (portRemoteOf bufIpv4) (some (22 + optLengthOf bufIpv4 + 4)) (jsSlice bufIpv4 0 1)
        (decide ((1 : Nat) = 2)) ∧
    parseDotted
        (joinDot (jsSlice bufIpv4 (22 + optLengthOf bufIpv4) (22 + optLengthOf bufIpv4 + 4))) =
      some (jsSlice bufIpv4 (22 + optLengthOf bufIpv4) (22 + optLengthOf bufIpv4 + 4)) :=
  claimIpv4RoundTrip bufIpv4 "" (by decide) (by decide) 1 (by decide) (Or.inl rfl)
    (by decide) (by decide)

/-! ### Claim C5: user-identifier validation -/

def bufZeroUser : List Nat :=
  [0] ++ List.replicate 16 0 ++ [0] ++ [1] ++ [0, 80] ++ [1] ++ [1, 2, 3, 4]

/-- C5 counterexample: the 16 identifier bytes of `bufZeroUser` are all
zero, which does not match the configured identifier
`a2056d0d-c98e-4aeb-9aab-37f64edd5710` (whose raw 16 bytes are listed
below), yet decoding succeeds: the source hard-codes `isValidUser = true`
(line 239) and never compares the bytes, so a mismatching identifier
decodes successfully. -/
theorem claimUserMismatchDecodes :
    jsSlice bufZeroUser 1 17 ≠
      [0xa2, 0x05, 0x6d, 0x0d, 0xc9, 0x8e, 0x4a, 0xeb,
        0x9a, 0xab, 0x37, 0xf6, 0x4e, 0xdd, 0x57, 0x10] ∧
    processVlessHeader bufZeroUser "a2056d0d-c98e-4aeb-9aab-37f64edd5710" =
      .ok "1.2.3.4" 1 80 (some 26) [0] false :=
  ⟨by decide, by decide⟩

/-- C5 amended: the identifier bytes 1–16 are read as the user field but
never validated: the decoder returns the identical result for any two
contents of those 16 bytes (no read of the buffer touches indices 1–16,
and the `invalid user` branch is unreachable). -/
theorem claimUserBytesIgnored (uid : String) (b0 : Nat)
    (id1 id2 tail : List Nat) (h1 : id1.length = 16) (h2 : id2.length = 16) :
    processVlessHeader (b0 :: (id1 ++ tail)) uid =
      processVlessHeader (b0 :: (id2 ++ tail)) uid := by
  have hdrop : ∀ (idf : List Nat), idf.length = 16 → ∀ k,
      (b0 :: (idf ++ tail)).drop (17 + k) = tail.drop k := by
    intro idf hid k
    rw [show 17 + k = (16 + k) + 1 from by omega, List.drop_succ_cons,
      show 16 + k = idf.length + k from by rw [hid], List.drop_append]
  have hs : ∀ a b, 17 ≤ a →
      jsSlice (b0 :: (id1 ++ tail)) a b = jsSlice (b0 :: (id2 ++ tail)) a b := by
    intro a b ha
    rw [jsSlice, jsSlice, show a = 17 + (a - 17) from by omega,
      hdrop id1 h1, hdrop id2 h2]
  have hlen : (b0 :: (id1 ++ tail)).length = (b0 :: (id2 ++ tail)).length := by
    simp [h1, h2]
  have hopt : optLengthOf (b0 :: (id1 ++ tail)) = optLengthOf (b0 :: (id2 ++ tail)) := by
    rw [optLengthOf, optLengthOf, hs 17 18 (by omega)]
  have hcmd : cmdOf (b0 :: (id1 ++ tail)) = cmdOf (b0 :: (id2 ++ tail)) := by
    rw [cmdOf, cmdOf, hopt, hs _ _ (by omega)]
  have hport : portRemoteOf (b0 :: (id1 ++ tail)) = portRemoteOf (b0 :: (id2 ++ tail)) := by
    rw [portRemoteOf, portRemoteOf, hopt, hs _ _ (by omega)]
  have haddr : addressTypeOf (b0 :: (id1 ++ tail)) = addressTypeOf (b0 :: (id2 ++ tail)) := by
    rw [addressTypeOf, addressTypeOf, hopt, hs _ _ (by omega)]
  have hv : jsSlice (b0 :: (id1 ++ tail)) 0 1 = jsSlice (b0 :: (id2 ++ tail)) 0 1 := rfl
  have hsA : ∀ b, jsSlice (b0 :: (id1 ++ tail)) (22 + optLengthOf (b0 :: (id2 ++ tail))) b
      = jsSlice (b0 :: (id2 ++ tail)) (22 + optLengthOf (b0 :: (id2 ++ tail))) b :=
    fun b => hs _ b (by omega)
  have hsB : ∀ b,
      jsSlice (b0 :: (id1 ++ tail)) (22 + optLengthOf (b0 :: (id2 ++ tail)) + 1) b
      = jsSlice (b0 :: (id2 ++ tail)) (22 + optLengthOf (b0 :: (id2 ++ tail)) + 1) b :=
    fun b => hs _ b (by omega)
  rw [processVlessHeader, processVlessHeader, hlen]
  simp only
  rw [hopt, hcmd, hport, haddr, hv]
  simp only [hsA, hsB]

theorem claimUserBytesIgnored_witness :
    processVlessHeader (0 :: (List.replicate 16 0 ++ [0, 1, 0, 80, 1, 1, 2, 3, 4])) "" =
      processVlessHeader (0 :: (List.replicate 16 1 ++ [0, 1, 0, 80, 1, 1, 2, 3, 4])) "" :=
  claimUserBytesIgnored "" 0 (List.replicate 16 0) (List.replicate 16 1)
    [0, 1, 0, 80, 1, 1, 2, 3, 4] (by decide) (by decide)

/-! ### Claim C6: early data is not concatenated with the first frame -/

/-- Live frame that would complete the 10-byte early-data fragment into a
valid 26-byte header (7 identifier bytes, options length 0, command 1,
port 80, IPv4 `9.9.9.9`). -/
def bufCompletion : List Nat :=
  [0, 0, 0, 0, 0, 0, 0] ++ [0] ++ [1] ++ [0, 80] ++ [1] ++ [9, 9, 9, 9]

/-- C6 counterexample: the token `"AAAAAAAAAAAAAA=="` decodes to 10 bytes
of early data (a strict header prefix); the adapter enqueues them as their
own first chunk, the session invokes the header decoder on those 10 bytes
alone and dies on the malformed-data error — the decoder is never invoked
on the concatenation with the completing live frame. -/
theorem claimEarlyDataFragmentDecodedAlone :
    makeReadableWebSocketStream "AAAAAAAAAAAAAA==" [bufCompletion] =
      .chunks [List.replicate 10 0, bufCompletion] ∧
    runSession "" "" initSessionState [List.replicate 10 0, bufCompletion] =
      [.decodedHeader (List.replicate 10 0), .threw "invalid data"] ∧
    SessionEvent.decodedHeader (List.replicate 10 0 ++ bufCompletion) ∉
      runSession "" "" initSessionState [List.replicate 10 0, bufCompletion] :=
  ⟨by decide, by decide, by decide⟩

/-- C6 amended: early data is emitted as its own first chunk ahead of all
live frames (never concatenated with one), and the session invokes the
header decoder on that early-data chunk alone. -/
theorem claimEarlyDataOwnChunk (proxyIP userID token : String)
    (msgs : List (List Nat)) (ed : List Nat)
    (h : base64ToArrayBuffer token = .ok ed) :
    makeReadableWebSocketStream token msgs = .chunks (ed :: msgs) ∧
    (runSession proxyIP userID initSessionState (ed :: msgs)).head? =
      some (.decodedHeader ed) := by
  refine ⟨by rw [makeReadableWebSocketStream, h], ?_⟩
  cases hp : processVlessHeader ed userID with
  | err m => simp [runSession, writeChunk, initSessionState, hp]
  | ok a t p r v u =>
    by_cases hu : u = true ∧ p ≠ 53
    · simp [runSession, writeChunk, initSessionState, hp, hu]
    · simp [runSession, writeChunk, initSessionState, hp, hu]

theorem claimEarlyDataOwnChunk_witness :
    makeReadableWebSocketStream "AAAA" [] = .chunks [[0, 0, 0]] ∧
    (runSession "" "" initSessionState [[0, 0, 0]]).head? =
      some (.decodedHeader [0, 0, 0]) :=
  claimEarlyDataOwnChunk "" "" "AAAA" [] [0, 0, 0] (by decide)

/-! ### Claim C7: the response header is sent exactly once, as a prefix -/

/-- C7: over a whole session the 2-byte response header `[v, 0]` is sent
exactly once: it is merged into the very first downstream message (whose
first two bytes are exactly `[v, 0]`, with the upstream chunk appended in
the same message), it is never a standalone message (the sends are in
one-to-one correspondence with the upstream chunks), and every later chunk
is forwarded unmodified. -/
theorem claimResponseHeaderOnce (v : Nat) (c : List Nat) (rest : List (List Nat)) :
    remoteSocketToWS (c :: rest) [v, 0] = ([v, 0] ++ c) :: rest ∧
    ([v, 0] ++ c).take 2 = [v, 0] := by
  refine ⟨?_, rfl⟩
  rw [remoteSocketToWS, remoteToWSLoop, if_pos rfl, remoteToWSLoop_sent]

/-! ### Claim C8: decoded port range -/

def bufPortZero : List Nat :=
  [0] ++ List.replicate 16 7 ++ [0] ++ [1] ++ [0, 0] ++ [1] ++ [8, 8, 8, 8]

/-- C8 counterexample: a header whose two port bytes are zero decodes
successfully with `portRemote = 0` — the decoder never enforces the lower
bound 1 claimed by the spec's `uint16(1–65535)` range. -/
theorem claimPortZeroDecodes :
    processVlessHeader bufPortZero "a2056d0d-c98e-4aeb-9aab-37f64edd5710" =
      .ok "8.8.8.8" 1 0 (some 26) [0] false ∧ ¬ 1 ≤ (0 : Nat) :=
  ⟨by decide, by decide⟩

theorem portRemoteOf_lt (buf : List Nat) (hbytes : ∀ b ∈ buf, b < 256) :
    portRemoteOf buf < 65536 := by
  have hb : ∀ i, (jsSlice buf (19 + optLengthOf buf) (19 + optLengthOf buf + 2)).getD i 0
      < 256 := by
    intro i
    rw [List.getD_eq_getElem?_getD]
    cases hx : (jsSlice buf (19 + optLengthOf buf) (19 + optLengthOf buf + 2))[i]? with
    | none => simp
    | some x =>
      simp only [Option.getD_some]
      exact hbytes x (jsSlice_subset _ _ _ (List.getElem?_mem hx))
  rw [portRemoteOf]
  have h0 := hb 0
  have h1 := hb 1
  have e8 : (2 : Nat) ^ 8 = 256 := by norm_num
  have e16 : (2 : Nat) ^ 16 = 65536 := by norm_num
  have hor :
      ((jsSlice buf (19 + optLengthOf buf) (19 + optLengthOf buf + 2)).getD 0 0 <<< 8) |||
        (jsSlice buf (19 + optLengthOf buf) (19 + optLengthOf buf + 2)).getD 1 0 < 2 ^ 16 :=
    Nat.or_lt_two_pow (by rw [Nat.shiftLeft_eq, e8, e16]; omega) (by rw [e16]; omega)
  rw [e16] at hor
  exact hor

/-- C8 amended: every successful decode of a byte buffer yields a port
below 65536 (a 16-bit value); the lower bound 1 is not enforced (see the
counterexample: port 0 decodes successfully). -/
theorem claimPortUint16 (buf : List Nat) (uid : String)
    (hbytes : ∀ b ∈ buf, b < 256)
    (a : String) (t p : Nat) (r : Option Nat) (v : List Nat) (u : Bool)
    (h : processVlessHeader buf uid = .ok a t p r v u) :
    p < 65536 := by
  obtain ⟨-, hp, -⟩ := processVlessHeader_ok_inv buf uid a t p r v u h
  rw [hp]
  exact portRemoteOf_lt buf hbytes

theorem claimPortUint16_witness : (80 : Nat) < 65536 :=
  claimPortUint16 bufIpv4 "" (by decide) "93.184.216.34" 1 80 (some 26) [0] false
    (by decide)

/-! ### Claim C9: the early-data decoder contract -/

/-- Modelled from the spec: rewrite a standard base64 string into its
URL-safe variant (plus becomes dash, slash becomes underscore). -/
def toUrlSafe (s : String) : String :=
  String.mk (s.data.map fun c => if c = '+' then '-' else if c = '/' then '_' else c)

/-- C9: the early-data decoder maps the empty (falsy) input to no bytes
and no error; it accepts URL-safe base64 — a string and its URL-safe
rewriting decode identically; and every malformed input (nonempty, `atob`
fails after the character replacement) yields the error result, which
carries no bytes. -/
theorem claimEarlyDataDecoder :
    base64ToArrayBuffer "" = EarlyDataResult.empty ∧
    (∀ s, base64ToArrayBuffer (toUrlSafe s) = base64ToArrayBuffer s) ∧
    (∀ s, s ≠ "" → atob (urlSafeReplace s) = none → base64ToArrayBuffer s = .err) := by
  refine ⟨rfl, ?_, ?_⟩
  · intro s
    have hd : urlSafeReplace (toUrlSafe s) = urlSafeReplace s := by
      apply String.ext
      show ((toUrlSafe s).data.map _) = (s.data.map _)
      rw [toUrlSafe]
      show (s.data.map _).map _ = _
      rw [List.map_map]
      apply List.map_congr_left
      intro c _
      by_cases h1 : c = '+'
      · subst h1; rfl
      · by_cases h2 : c = '/'
        · subst h2; rfl
        · simp [Function.comp, h1, h2]
    by_cases hs : s = ""
    · subst hs; rfl
    · have hts : toUrlSafe s ≠ "" := by
        intro hts
        have hdat := congrArg String.data hts
        rw [toUrlSafe] at hdat
        simp only [List.map_eq_nil_iff] at hdat
        exact hs (String.ext (by simp [hdat]))
      rw [base64ToArrayBuffer, base64ToArrayBuffer, if_neg hts, if_neg hs, hd]
  · intro s h1 h2
    rw [base64ToArrayBuffer, if_neg h1, h2]

theorem claimEarlyDataDecoder_witness :
    base64ToArrayBuffer (toUrlSafe "AQ+/") = base64ToArrayBuffer "AQ+/" ∧
    base64ToArrayBuffer "!!" = .err :=
  ⟨claimEarlyDataDecoder.2.1 "AQ+/",
    claimEarlyDataDecoder.2.2 "!!" (by decide) (by decide)⟩

